import Mathlib

/-!
# Shallow embedding of the switch2idea extension

This file embeds the pure decision logic of the switch2idea VS Code
extension (TypeScript) in Lean 4:

* `src/types.ts` — `EditorType`, `EditorConfig`, `JumpContext`;
* `src/configManager.ts` — `ConfigManager.getEditors` / `getDefaultEditors`;
* `src/handlers/jetbrainsHandler.ts` — `buildCommand`, `buildMacCommand`,
  `buildCliCommand`, `getDefaultPath`, and the error classification of
  `executeCommand`;
* `src/jumpHandlerFactory.ts` — `JumpHandlerFactory.getHandler`;
* `src/editorTreeView.ts` — the persistence steps `saveEditor` /
  `removeEditor` and the confirmed delete flow;
* `src/extension.ts` — the jump-context construction of the
  `Switch2IDEA.openFileInIDEA` command handler.

JavaScript optional values (`x?: T`) are `Option T`; JavaScript truthiness
on strings (`""` is falsy) and numbers (`0` is falsy) is modelled
explicitly.  Code that throws is modelled with `Except String`, carrying
the thrown error message.  Host-environment inputs (`os.platform()`,
`process.env.LOCALAPPDATA`, `os.homedir()`, the configuration store, the
active text editor) are passed as explicit parameters.
-/

namespace Switch2IDEA

/-- JavaScript truthiness of an optional string: `undefined` and `""` are
falsy. -/
def truthyStr : Option String → Bool
  | none => false
  | some s => s ≠ ""

/-- JavaScript truthiness of an optional number: `undefined` and `0` are
falsy. -/
def truthyNat : Option Nat → Bool
  | none => false
  | some n => n ≠ 0

/-! ## `src/types.ts` -/

/-- `EditorType` from `src/types.ts`: `'jetbrains' | 'custom'`. -/
inductive EditorType where
  | jetbrains
  | custom
deriving DecidableEq, Repr

/-- String form of an `EditorType`, as it would be interpolated into a
message. -/
def EditorType.str : EditorType → String
  | .jetbrains => "jetbrains"
  | .custom => "custom"

/-- `EditorConfig` from `src/types.ts`. -/
structure EditorConfig where
  name : String
  type : EditorType
  path : String
  urlScheme : Option String := none
deriving DecidableEq, Repr

/-- `JumpContext` from `src/types.ts`. -/
structure JumpContext where
  filePath : Option String := none
  projectPath : Option String := none
  line : Option Nat := none
  column : Option Nat := none
deriving DecidableEq, Repr

/-! ## The configuration store

`vscode.workspace.getConfiguration('switch2idea')` exposes the `editors`
list, the legacy `ideaPath` string, and the `showTreeView` flag.  A key
that has never been written reads as `undefined` (`none`). -/

/-- The `switch2idea` section of the host settings store. -/
structure ConfigStore where
  editors : Option (List EditorConfig) := none
  ideaPath : Option String := none
deriving DecidableEq, Repr

/-! ## `src/configManager.ts` -/

/-- `ConfigManager.getDefaultEditors`. -/
def getDefaultEditors : List EditorConfig :=
  [{ name := "IntelliJ IDEA", type := .jetbrains, path := "", urlScheme := some "idea" }]

/-- `ConfigManager.getEditors`: the new `editors` list when present and
non-empty, else a single entry synthesized from the legacy `ideaPath`
when that is truthy, else the built-in default. -/
def getEditors (s : ConfigStore) : List EditorConfig :=
  match s.editors with
  | some editors =>
    if editors.length > 0 then editors
    else
      match s.ideaPath with
      | some legacyPath =>
        if legacyPath ≠ "" then
          [{ name := "IntelliJ IDEA", type := .jetbrains, path := legacyPath,
             urlScheme := some "idea" }]
        else getDefaultEditors
      | none => getDefaultEditors
  | none =>
    match s.ideaPath with
    | some legacyPath =>
      if legacyPath ≠ "" then
        [{ name := "IntelliJ IDEA", type := .jetbrains, path := legacyPath,
           urlScheme := some "idea" }]
      else getDefaultEditors
    | none => getDefaultEditors

/-! ## JavaScript string builtins used by the handler -/

/-- JavaScript `s.toLowerCase()` on the ASCII names this program handles:
lower-case every character. -/
def jsToLowerCase (s : String) : String :=
  String.mk (s.data.map Char.toLower)

/-- JavaScript `hay.includes(needle)`: substring containment. -/
def strIncludes (hay needle : String) : Bool :=
  (List.range (hay.data.length + 1)).any fun i =>
    needle.data.isPrefixOf (hay.data.drop i)

/-- Upper-case hexadecimal digit, as `encodeURIComponent` produces. -/
def hexDigitUpper (n : Nat) : Char :=
  if n < 10 then Char.ofNat (48 + n) else Char.ofNat (55 + n)

/-- UTF-8 byte sequence of a character (as natural numbers below 256). -/
def utf8Bytes (c : Char) : List Nat :=
  let n := c.toNat
  if n < 0x80 then [n]
  else if n < 0x800 then
    [0xC0 ||| (n >>> 6), 0x80 ||| (n &&& 0x3F)]
  else if n < 0x10000 then
    [0xE0 ||| (n >>> 12), 0x80 ||| ((n >>> 6) &&& 0x3F), 0x80 ||| (n &&& 0x3F)]
  else
    [0xF0 ||| (n >>> 18), 0x80 ||| ((n >>> 12) &&& 0x3F),
     0x80 ||| ((n >>> 6) &&& 0x3F), 0x80 ||| (n &&& 0x3F)]

/-- Characters `encodeURIComponent` leaves unescaped:
`A–Z a–z 0–9 - _ . ! ~ * ' ( )`. -/
def isUriUnreserved (c : Char) : Bool :=
  c.isAlpha || c.isDigit ||
    (c ∈ ['-', '_', '.', '!', '~', '*', Char.ofNat 39, '(', ')'])

/-- Percent-escape of one byte: `%HH` with upper-case hex. -/
def percentByte (b : Nat) : String :=
  String.mk ['%', hexDigitUpper (b / 16), hexDigitUpper (b % 16)]

/-- JavaScript `encodeURIComponent`: unreserved characters are kept, every
other character is written as the `%HH` escapes of its UTF-8 bytes. -/
def encodeURIComponent (s : String) : String :=
  s.data.foldl
    (fun acc c =>
      if isUriUnreserved c then acc.push c
      else acc ++ String.join ((utf8Bytes c).map percentByte))
    ""

/-! ## Error messages

`l10n.t` with the default (English) bundle returns the template with the
positional placeholders substituted. -/

/-- `errorMessages.noFileOrProject` in `src/handlers/jetbrainsHandler.ts`. -/
def noFileOrProjectMsg : String := "No file or project path provided!"

/-- `errorMessages.editorNotFound` in `src/handlers/jetbrainsHandler.ts`. -/
def editorNotFoundMsg (name path : String) : String :=
  "Cannot launch " ++ name ++ ": \"" ++ path ++
    "\" not found. Please check the editor path config."

/-- `errorMessages.executionFailed` in `src/handlers/jetbrainsHandler.ts`. -/
def executionFailedMsg (name error : String) : String :=
  "Failed to launch " ++ name ++ ": " ++ error

/-- `errorMessages.unsupportedType` in `src/jumpHandlerFactory.ts`. -/
def unsupportedTypeMsg (type : String) : String :=
  "Unsupported editor type: " ++ type ++ ". Currently supported types: jetbrains"

/-- `errorMessages.noActiveEditor` in `src/extension.ts`. -/
def noActiveEditorMsg : String := "No active file! Please open a file first."

/-! ## `src/handlers/jetbrainsHandler.ts` — command construction -/

/-- Host-environment inputs of default-path resolution:
`process.env.LOCALAPPDATA` and `os.homedir()`. -/
structure HostEnv where
  localAppData : String
  homedir : String
deriving Repr

/-- One row of the `appNameMap` table in `JetBrainsHandler.getDefaultPath`. -/
structure AppInfo where
  mac : String
  win : String
  linux : String
deriving DecidableEq, Repr

/-- The `appNameMap` table of `JetBrainsHandler.getDefaultPath`, in source
order. -/
def appNameMap : List (String × AppInfo) :=
  [("intellij idea", { mac := "IntelliJ IDEA", win := "idea64.exe", linux := "idea.sh" }),
   ("webstorm", { mac := "WebStorm", win := "webstorm64.exe", linux := "webstorm.sh" }),
   ("pycharm", { mac := "PyCharm", win := "pycharm64.exe", linux := "pycharm.sh" }),
   ("goland", { mac := "GoLand", win := "goland64.exe", linux := "goland.sh" }),
   ("phpstorm", { mac := "PhpStorm", win := "phpstorm64.exe", linux := "phpstorm.sh" }),
   ("rider", { mac := "Rider", win := "rider64.exe", linux := "rider.sh" }),
   ("clion", { mac := "CLion", win := "clion64.exe", linux := "clion.sh" }),
   ("rubymine", { mac := "RubyMine", win := "rubymine64.exe", linux := "rubymine.sh" }),
   ("datagrip", { mac := "DataGrip", win := "datagrip64.exe", linux := "datagrip.sh" }),
   ("android studio", { mac := "Android Studio", win := "studio64.exe", linux := "studio.sh" })]

/-- The IntelliJ IDEA row, the loop's starting value (`appNameMap['intellij
idea']`). -/
def ideaAppInfo : AppInfo :=
  { mac := "IntelliJ IDEA", win := "idea64.exe", linux := "idea.sh" }

/-- `const name = editorName?.toLowerCase() || 'intellij idea'`. -/
def effectiveEditorKey (editorName : Option String) : String :=
  match editorName with
  | some n =>
    if jsToLowerCase n ≠ "" then jsToLowerCase n else "intellij idea"
  | none => "intellij idea"

/-- The matching loop of `getDefaultPath`: scan `appNameMap` in order,
first key that is a substring of the lowercased name wins; no match keeps
the IntelliJ IDEA starting value. -/
def lookupAppInfo (editorName : Option String) : AppInfo :=
  let name := effectiveEditorKey editorName
  match appNameMap.find? (fun p => strIncludes name p.1) with
  | some p => p.2
  | none => ideaAppInfo

/-- `JetBrainsHandler.getDefaultPath`. -/
def getDefaultPath (env : HostEnv) (platform : String) (editorName : Option String) :
    String :=
  let appInfo := lookupAppInfo editorName
  if platform = "darwin" then appInfo.mac
  else if platform = "win32" then
    env.localAppData ++ "\\JetBrains\\Toolbox\\scripts\\" ++
      (appInfo.win.replace "64.exe" "")
  else if platform = "linux" then
    env.homedir ++ "/.local/share/JetBrains/Toolbox/scripts/" ++
      (appInfo.linux.replace ".sh" "")
  else appInfo.mac

/-- `const scheme = config.urlScheme || 'idea'`. -/
def effectiveScheme (config : EditorConfig) : String :=
  match config.urlScheme with
  | some s => if s ≠ "" then s else "idea"
  | none => "idea"

/-- `JetBrainsHandler.buildMacCommand`: URL-scheme command for the darwin
branch; `throw` is modelled as `Except.error` with the thrown message. -/
def buildMacCommand (config : EditorConfig) (context : JumpContext)
    (appPath : String) : Except String String :=
  let scheme := effectiveScheme config
  if truthyStr context.filePath then
    let url := scheme ++ "://open?file=" ++
      encodeURIComponent (context.filePath.getD "")
    let url := match context.line with
      | some l => if l ≠ 0 then url ++ "&line=" ++ toString l else url
      | none => url
    let url := match context.column with
      | some c => url ++ "&column=" ++ toString c
      | none => url
    .ok ("open -a \"" ++ appPath ++ "\" \"" ++ url ++ "\"")
  else if truthyStr context.projectPath then
    let url := scheme ++ "://open?file=" ++
      encodeURIComponent (context.projectPath.getD "")
    .ok ("open -a \"" ++ appPath ++ "\" \"" ++ url ++ "\"")
  else
    .error noFileOrProjectMsg

/-- `JetBrainsHandler.buildCliCommand`: command-line command for the
non-darwin branch. -/
def buildCliCommand (context : JumpContext) (execPath : String) :
    Except String String :=
  if truthyStr context.filePath then
    let cmd := "\"" ++ execPath ++ "\""
    let cmd := match context.line with
      | some l => if l ≠ 0 then cmd ++ " --line " ++ toString l else cmd
      | none => cmd
    let cmd := match context.column with
      | some c => cmd ++ " --column " ++ toString c
      | none => cmd
    .ok (cmd ++ " \"" ++ context.filePath.getD "" ++ "\"")
  else if truthyStr context.projectPath then
    .ok ("\"" ++ execPath ++ "\" \"" ++ context.projectPath.getD "" ++ "\"")
  else
    .error noFileOrProjectMsg

/-- `const path = config.path || this.getDefaultPath(platform, config.name)`. -/
def resolvedPath (env : HostEnv) (platform : String) (config : EditorConfig) :
    String :=
  if config.path ≠ "" then config.path
  else getDefaultPath env platform (some config.name)

/-- `JetBrainsHandler.buildCommand`: platform dispatch. -/
def buildCommand (env : HostEnv) (platform : String) (config : EditorConfig)
    (context : JumpContext) : Except String String :=
  let path := resolvedPath env platform config
  if platform = "darwin" then buildMacCommand config context path
  else buildCliCommand context path

/-! ## `src/handlers/jetbrainsHandler.ts` — execution-failure classification -/

/-- The `error` object handed to the `exec` callback when the child process
fails: its `message` text and optional `code`. -/
structure ExecFailure where
  message : String
  code : Option Int := none
deriving DecidableEq, Repr

/-- The not-found test of `executeCommand`: message contains `ENOENT`,
`not found` or the localized phrase, or the exit code is 127. -/
def isNotFoundFailure (e : ExecFailure) : Bool :=
  strIncludes e.message "ENOENT" ||
  strIncludes e.message "not found" ||
  strIncludes e.message "找不到" ||
  e.code = some 127

/-- The error message `executeCommand` reports for a failed process. -/
def classifyExecFailure (env : HostEnv) (platform : String)
    (config : EditorConfig) (e : ExecFailure) : String :=
  if isNotFoundFailure e then
    let path :=
      if config.path ≠ "" then config.path
      else getDefaultPath env platform (some config.name)
    editorNotFoundMsg config.name path
  else
    executionFailedMsg config.name e.message

/-- Observable outcome of `executeCommand`: the error notification shown (if
any) and whether the promise resolves or rejects (with which message). -/
structure ExecEffect where
  notification : Option String
  result : Except String Unit
deriving Repr

/-- The `exec` callback of `JetBrainsHandler.executeCommand`, as a function
of the process outcome (`none` = no error object). -/
def executeCommandStep (env : HostEnv) (platform : String)
    (config : EditorConfig) (outcome : Option ExecFailure) : ExecEffect :=
  match outcome with
  | some e =>
    let errorMessage := classifyExecFailure env platform config e
    { notification := some errorMessage, result := .error errorMessage }
  | none => { notification := none, result := .ok () }

/-! ## `src/jumpHandlerFactory.ts` -/

/-- Handler implementations present in the repository. -/
inductive Handler where
  | jetBrainsHandler
deriving DecidableEq, Repr

/-- The `handlers` map as seeded by the `JumpHandlerFactory` constructor. -/
def initialHandlers : EditorType → Option Handler
  | .jetbrains => some .jetBrainsHandler
  | .custom => none

/-- `JumpHandlerFactory.getHandler` over a handler map. -/
def getHandler (handlers : EditorType → Option Handler) (type : EditorType) :
    Except String Handler :=
  match handlers type with
  | some h => .ok h
  | none => .error (unsupportedTypeMsg type.str)

/-! ## `src/editorTreeView.ts` — persistence steps and delete flow -/

/-- `config.get<EditorConfig[]>('editors') || []`: the raw stored list (an
empty JavaScript array is truthy, so only `undefined` falls back to `[]`). -/
def rawEditors (s : ConfigStore) : List EditorConfig :=
  s.editors.getD []

/-- `editors.push(editor)` of `EditorConfigCommands.saveEditor`. -/
def saveEditorList (editors : List EditorConfig) (editor : EditorConfig) :
    List EditorConfig :=
  editors ++ [editor]

/-- `EditorConfigCommands.saveEditor`: read the raw list, push, write back. -/
def saveEditor (s : ConfigStore) (editor : EditorConfig) : ConfigStore :=
  { s with editors := some (saveEditorList (rawEditors s) editor) }

/-- `editors.splice(index, 1)` of `EditorConfigCommands.removeEditor` for a
non-negative index: drop the element at `index` when it exists, otherwise
leave the array unchanged. -/
def spliceRemove (l : List EditorConfig) (index : Nat) : List EditorConfig :=
  l.take index ++ l.drop (index + 1)

/-- `EditorConfigCommands.removeEditor`: read the raw list, splice, write
back. -/
def removeEditor (s : ConfigStore) (index : Nat) : ConfigStore :=
  { s with editors := some (spliceRemove (rawEditors s) index) }

/-- A rendered tree row: the editor shown and its index, as
`EditorTreeDataProvider.getChildren` constructs `EditorTreeItem editor
index` over `configManager.getEditors()`. -/
structure EditorTreeItem where
  editor : EditorConfig
  index : Nat
deriving DecidableEq, Repr

/-- The editor rows rendered by `EditorTreeDataProvider.getChildren` (the
trailing add-editor placeholder is not an editor row). -/
def getChildrenEditors (s : ConfigStore) : List EditorTreeItem :=
  (getEditors s).enum.map fun p => { editor := p.2, index := p.1 }

/-- Outcome of the confirmed branch of `EditorConfigCommands.deleteEditor`:
the store after `removeEditor(item.index)` and the information message. -/
structure DeleteEffect where
  store : ConfigStore
  notification : String
deriving DecidableEq, Repr

/-- The confirmed branch of `EditorConfigCommands.deleteEditor`. -/
def deleteEditorConfirmed (s : ConfigStore) (item : EditorTreeItem) :
    DeleteEffect :=
  { store := removeEditor s item.index,
    notification := "Editor deleted: " ++ item.editor.name }

/-! ## `src/extension.ts` — the `Switch2IDEA.openFileInIDEA` handler -/

/-- The state of `vscode.window.activeTextEditor` the handler reads:
`document.uri.fsPath`, `selection.active.line` (0-based) and
`selection.active.character` (0-based). -/
structure ActiveEditor where
  fsPath : String
  activeLine : Nat
  activeCharacter : Nat
deriving DecidableEq, Repr

/-- Jump-context construction of the `Switch2IDEA.openFileInIDEA` command
handler; the no-active-editor early return is modelled as `Except.error`
with the message it shows. -/
def openFileContext (uri : Option String) (active : Option ActiveEditor) :
    Except String JumpContext :=
  match uri with
  | some fsPath =>
    let li :=
      match active with
      | some ed =>
        if ed.fsPath = fsPath then (ed.activeLine + 1, ed.activeCharacter)
        else (1, 0)
      | none => (1, 0)
    .ok { filePath := some fsPath, line := some li.1, column := some li.2 }
  | none =>
    match active with
    | none => .error noActiveEditorMsg
    | some ed =>
      .ok { filePath := some ed.fsPath, line := some (ed.activeLine + 1),
            column := some ed.activeCharacter }

/-! ## Theorems -/

/-- Helper: merge the closing quote with a following `--line` segment. -/
theorem quote_line_merge (X : String) :
    "\"" ++ (" --line " ++ X) = "\" --line " ++ X := by
  rw [← String.append_assoc]
  rfl

/-- Helper: merge the closing quote with a following `--column` segment. -/
theorem quote_column_merge (X : String) :
    "\"" ++ (" --column " ++ X) = "\" --column " ++ X := by
  rw [← String.append_assoc]
  rfl

/-- Helper: merge the closing quote with a following opening quote. -/
theorem quote_space_quote_merge (X : String) :
    "\"" ++ (" \"" ++ X) = "\" \"" ++ X := by
  rw [← String.append_assoc]
  rfl

/-- C1: `ConfigManager.getEditors` always returns a non-empty list and never
fails: a present, non-empty stored `editors` list is returned verbatim;
otherwise a present, non-empty legacy `ideaPath` yields exactly one
synthesized IntelliJ IDEA entry carrying the legacy path; otherwise the
single built-in default entry with empty path is returned. -/
theorem getEditors_total_spec (s : ConfigStore) :
    getEditors s ≠ [] ∧
    (∀ l, s.editors = some l → l ≠ [] → getEditors s = l) ∧
    ((s.editors = none ∨ s.editors = some []) →
      ∀ p, s.ideaPath = some p → p ≠ "" →
        getEditors s =
          [{ name := "IntelliJ IDEA", type := .jetbrains, path := p,
             urlScheme := some "idea" }]) ∧
    ((s.editors = none ∨ s.editors = some []) →
      (s.ideaPath = none ∨ s.ideaPath = some "") →
        getEditors s =
          [{ name := "IntelliJ IDEA", type := .jetbrains, path := "",
             urlScheme := some "idea" }]) := by
  rcases s with ⟨e, ip⟩
  refine ⟨?_, ?_, ?_, ?_⟩
  · rcases e with _ | l <;> rcases ip with _ | p <;>
      simp only [getEditors, getDefaultEditors]
    · simp
    · split <;> simp
    · split
      · next h => exact List.length_pos.mp h
      · simp [getDefaultEditors]
    · split
      · next h => exact List.length_pos.mp h
      · split <;> simp
  · intro l hl hne
    rcases e with _ | l₀
    · exact absurd hl (by simp)
    · replace hl : l₀ = l := by injection hl
      subst hl
      have hpos : 0 < l₀.length := List.length_pos.mpr hne
      rcases ip with _ | p <;> simp [getEditors, hpos]
  · rintro he p hp hpe
    have hl : e = none ∨ e = some [] := he
    subst hp
    rcases hl with rfl | rfl <;> simp [getEditors, hpe]
  · rintro he hip
    rcases he with rfl | rfl <;> rcases hip with rfl | rfl <;>
      simp [getEditors, getDefaultEditors]

/-- C4: with neither a truthy `filePath` nor a truthy `projectPath`, both
the darwin URL builder and the CLI builder throw the
`No file or project path provided!` error, as does the platform dispatcher
`buildCommand` on every platform, and no command string is produced. -/
theorem buildCommand_noFileOrProject (config : EditorConfig)
    (ctx : JumpContext) (appPath execPath : String) (env : HostEnv)
    (platform : String)
    (hf : truthyStr ctx.filePath = false)
    (hp : truthyStr ctx.projectPath = false) :
    buildMacCommand config ctx appPath = .error noFileOrProjectMsg ∧
    buildCliCommand ctx execPath = .error noFileOrProjectMsg ∧
    buildCommand env platform config ctx = .error noFileOrProjectMsg := by
  refine ⟨?_, ?_, ?_⟩
  · simp [buildMacCommand, hf, hp]
  · simp [buildCliCommand, hf, hp]
  · simp only [buildCommand]
    split
    · simp [buildMacCommand, hf, hp]
    · simp [buildCliCommand, hf, hp]

/-- Witness for C4 at the empty jump context. -/
theorem buildCommand_noFileOrProject_witness :
    buildMacCommand ⟨"IntelliJ IDEA", .jetbrains, "", some "idea"⟩ {}
        "IntelliJ IDEA" = .error noFileOrProjectMsg ∧
    buildCliCommand {} "idea" = .error noFileOrProjectMsg ∧
    buildCommand ⟨"C:\\Users\\u\\AppData\\Local", "/home/u"⟩ "linux"
        ⟨"IntelliJ IDEA", .jetbrains, "", some "idea"⟩ {} =
      .error noFileOrProjectMsg :=
  buildCommand_noFileOrProject ⟨"IntelliJ IDEA", .jetbrains, "", some "idea"⟩
    {} "IntelliJ IDEA" "idea" ⟨"C:\\Users\\u\\AppData\\Local", "/home/u"⟩
    "linux" rfl rfl

/-- C2: on the darwin branch, a jump context with a truthy `filePath`
yields `open -a "<app path>" "<url>"` where the URL is
`<scheme>://open?file=<url-encoded path>`, with `&line=<line>` appended
exactly when the line is truthy and `&column=<column>` appended exactly
when the column is defined; the scheme is the configured `urlScheme`,
defaulting to `idea`. -/
theorem buildMacCommand_file_url (config : EditorConfig) (ctx : JumpContext)
    (appPath fp : String)
    (hfp : ctx.filePath = some fp) (hne : fp ≠ "") :
    buildMacCommand config ctx appPath =
      .ok ("open -a \"" ++ appPath ++ "\" \"" ++
        effectiveScheme config ++ "://open?file=" ++ encodeURIComponent fp ++
        (match ctx.line with
         | some l => if l ≠ 0 then "&line=" ++ toString l else ""
         | none => "") ++
        (match ctx.column with
         | some c => "&column=" ++ toString c
         | none => "") ++ "\"") ∧
    (∀ sch, config.urlScheme = some sch → sch ≠ "" →
      effectiveScheme config = sch) ∧
    (config.urlScheme = none → effectiveScheme config = "idea") := by
  refine ⟨?_, ?_, ?_⟩
  · rcases ctx with ⟨f, pp, ln, col⟩
    subst hfp
    rcases ln with _ | l <;> rcases col with _ | c <;>
      simp [buildMacCommand, truthyStr, hne, String.append_assoc] <;>
      split <;> simp [String.append_assoc]
  · intro sch hs hne₀
    simp [effectiveScheme, hs, hne₀]
  · intro hs
    simp [effectiveScheme, hs]

/-- Witness for C2: line 42, no column, scheme `pycharm`; the URL carries
`&line=42` and no `&column=`. -/
theorem buildMacCommand_file_url_witness :
    buildMacCommand ⟨"PyCharm", .jetbrains, "", some "pycharm"⟩
        { filePath := some "/a b/c.ts", line := some 42 } "PyCharm" =
      .ok "open -a \"PyCharm\" \"pycharm://open?file=%2Fa%20b%2Fc.ts&line=42\"" := by
  have h := buildMacCommand_file_url ⟨"PyCharm", .jetbrains, "", some "pycharm"⟩
    { filePath := some "/a b/c.ts", line := some 42 } "PyCharm" "/a b/c.ts"
    rfl (by decide)
  rw [h.1]
  rfl

/-- C3: on both platform branches, the line segment is present iff the line
is truthy (line 0 counts as absent) and the column segment is present iff
the column is defined (column 0 counts as present). -/
theorem lineColumn_presence (ctx : JumpContext) (config : EditorConfig)
    (appPath execPath fp : String)
    (hfp : ctx.filePath = some fp) (hne : fp ≠ "") :
    buildCliCommand ctx execPath =
      .ok ("\"" ++ execPath ++ "\"" ++
        (match ctx.line with
         | some l => if l ≠ 0 then " --line " ++ toString l else ""
         | none => "") ++
        (match ctx.column with
         | some c => " --column " ++ toString c
         | none => "") ++
        " \"" ++ fp ++ "\"") ∧
    buildMacCommand config ctx appPath =
      .ok ("open -a \"" ++ appPath ++ "\" \"" ++ effectiveScheme config ++
        "://open?file=" ++ encodeURIComponent fp ++
        (match ctx.line with
         | some l => if l ≠ 0 then "&line=" ++ toString l else ""
         | none => "") ++
        (match ctx.column with
         | some c => "&column=" ++ toString c
         | none => "") ++ "\"") ∧
    (truthyNat (some 0) = false ∧ truthyNat none = false ∧
      ∀ n, n ≠ 0 → truthyNat (some n) = true) := by
  refine ⟨?_, ?_, by decide, by decide, fun n hn => by simp [truthyNat, hn]⟩
  · rcases ctx with ⟨f, pp, ln, col⟩
    subst hfp
    rcases ln with _ | l <;> rcases col with _ | c <;>
      simp [buildCliCommand, truthyNat, truthyStr, hne, String.append_assoc,
        quote_line_merge, quote_column_merge, quote_space_quote_merge] <;>
      split <;>
      simp_all [String.append_assoc, quote_line_merge, quote_column_merge,
        quote_space_quote_merge]
  · rcases ctx with ⟨f, pp, ln, col⟩
    subst hfp
    rcases ln with _ | l <;> rcases col with _ | c <;>
      simp [buildMacCommand, truthyNat, truthyStr, hne,
        String.append_assoc] <;>
      split <;> simp_all [String.append_assoc]

/-- Witness for C3: column 5 and no line on the CLI branch gives
`"<exe>" --column 5 "<file>"` with no `--line` flag. -/
theorem lineColumn_presence_witness :
    buildCliCommand { filePath := some "/w/f.rs", column := some 5 }
        "/usr/local/bin/idea" =
      .ok "\"/usr/local/bin/idea\" --column 5 \"/w/f.rs\"" := by
  have h := lineColumn_presence { filePath := some "/w/f.rs", column := some 5 }
    ⟨"IntelliJ IDEA", .jetbrains, "", some "idea"⟩ "IntelliJ IDEA"
    "/usr/local/bin/idea" "/w/f.rs" rfl (by decide)
  rw [h.1]
  rfl

/-- Helper: `List.find?` returns the element at the first index satisfying
the predicate. -/
theorem find_eq_of_first {α : Type} (l : List α) (p : α → Bool) (i : Nat)
    (h : i < l.length) (hp : p (l.get ⟨i, h⟩) = true)
    (hprev : ∀ j (hj : j < i), p (l.get ⟨j, Nat.lt_trans hj h⟩) = false) :
    l.find? p = some (l.get ⟨i, h⟩) := by
  induction l generalizing i with
  | nil => exact absurd h (by simp)
  | cons a t ih =>
    cases i with
    | zero => simp_all [List.find?_cons]
    | succ n =>
      have ha : p a = false := hprev 0 (Nat.succ_pos n)
      simp only [List.find?_cons, ha, cond_false, List.get, List.length_cons] at *
      exact ih n (Nat.lt_of_succ_lt_succ h) hp
        (fun j hj => hprev (j + 1) (Nat.succ_lt_succ hj))

/-- C5: `getDefaultPath` lowercases the configured name and matches it by
substring containment against the table keys in table order, first match
winning; a name matching no key (RustRover included) falls back to the
IntelliJ IDEA row; the result is the mac application name on darwin, the
Toolbox scripts path with the `64.exe`-stripped slug on win32, and the
Toolbox scripts path with the `.sh`-stripped slug on linux. -/
theorem getDefaultPath_spec :
    (∀ (env : HostEnv) (name : Option String),
      getDefaultPath env "darwin" name = (lookupAppInfo name).mac ∧
      getDefaultPath env "win32" name =
        env.localAppData ++ "\\JetBrains\\Toolbox\\scripts\\" ++
          ((lookupAppInfo name).win.replace "64.exe" "") ∧
      getDefaultPath env "linux" name =
        env.homedir ++ "/.local/share/JetBrains/Toolbox/scripts/" ++
          ((lookupAppInfo name).linux.replace ".sh" "")) ∧
    (∀ n : String, jsToLowerCase n ≠ "" →
      effectiveEditorKey (some n) = jsToLowerCase n) ∧
    (∀ (name : Option String) (i : Nat) (h : i < appNameMap.length),
      strIncludes (effectiveEditorKey name) (appNameMap.get ⟨i, h⟩).1 = true →
      (∀ j (hj : j < i),
        strIncludes (effectiveEditorKey name)
          (appNameMap.get ⟨j, Nat.lt_trans hj h⟩).1 = false) →
      lookupAppInfo name = (appNameMap.get ⟨i, h⟩).2) ∧
    (∀ name : Option String,
      (∀ kv ∈ appNameMap, strIncludes (effectiveEditorKey name) kv.1 = false) →
      lookupAppInfo name = ideaAppInfo) ∧
    lookupAppInfo (some "RustRover") = ideaAppInfo ∧
    lookupAppInfo (some "My WebStorm 2024") =
      { mac := "WebStorm", win := "webstorm64.exe", linux := "webstorm.sh" } := by
  refine ⟨fun env name => ⟨rfl, rfl, rfl⟩, ?_, ?_, ?_, by rfl, by rfl⟩
  · intro n hn
    simp [effectiveEditorKey, hn]
  · intro name i h hp hprev
    have hf := find_eq_of_first appNameMap
      (fun kv => strIncludes (effectiveEditorKey name) kv.1) i h hp hprev
    simp [lookupAppInfo, hf]
  · intro name hnone
    have hf : appNameMap.find?
        (fun kv => strIncludes (effectiveEditorKey name) kv.1) = none :=
      List.find?_eq_none.mpr (fun kv hkv => by simp [hnone kv hkv])
    simp [lookupAppInfo, hf]

/-- C6: a failed child process is reported as `EditorNotFound` exactly when
the error message contains `ENOENT`, `not found` or the localized
not-found phrase or the exit code is 127 — naming the editor and the
attempted path, recomputing the default path when the configured path is
empty — and as `ExecutionFailed` with the raw error text otherwise; either
message is both shown as a notification and used to reject the operation. -/
theorem executeCommand_classification (env : HostEnv) (platform : String)
    (config : EditorConfig) (e : ExecFailure) :
    (isNotFoundFailure e = true ↔
      (strIncludes e.message "ENOENT" = true ∨
       strIncludes e.message "not found" = true ∨
       strIncludes e.message "找不到" = true ∨
       e.code = some 127)) ∧
    (isNotFoundFailure e = true →
      executeCommandStep env platform config (some e) =
        { notification := some (editorNotFoundMsg config.name
            (if config.path ≠ "" then config.path
             else getDefaultPath env platform (some config.name))),
          result := .error (editorNotFoundMsg config.name
            (if config.path ≠ "" then config.path
             else getDefaultPath env platform (some config.name))) }) ∧
    (isNotFoundFailure e = false →
      executeCommandStep env platform config (some e) =
        { notification := some (executionFailedMsg config.name e.message),
          result := .error (executionFailedMsg config.name e.message) }) ∧
    executeCommandStep env platform config none =
      { notification := none, result := .ok () } := by
  refine ⟨?_, ?_, ?_, rfl⟩
  · simp [isNotFoundFailure, Bool.or_eq_true, or_assoc]
  · intro h
    simp [executeCommandStep, classifyExecFailure, h]
  · intro h
    simp [executeCommandStep, classifyExecFailure, h]

/-- C7: the add flow's save step appends exactly one entry at the end,
preserving every prior entry and its position; the delete flow's remove
step at a valid index drops exactly that position, keeps earlier entries
in place, and shifts every later entry down by one. -/
theorem saveRemove_list_spec (l : List EditorConfig) (e : EditorConfig)
    (i : Nat) (hi : i < l.length) :
    (saveEditorList l e).length = l.length + 1 ∧
    (∀ j, j < l.length → (saveEditorList l e).get? j = l.get? j) ∧
    (saveEditorList l e).get? l.length = some e ∧
    (spliceRemove l i).length = l.length - 1 ∧
    (∀ j, j < i → (spliceRemove l i).get? j = l.get? j) ∧
    (∀ j, i ≤ j → (spliceRemove l i).get? j = l.get? (j + 1)) := by
  have hile : i ≤ l.length := Nat.le_of_lt hi
  refine ⟨by simp [saveEditorList], ?_, ?_, ?_, ?_, ?_⟩
  · intro j hj
    simp only [saveEditorList, List.get?_eq_getElem?]
    exact List.getElem?_append_left hj
  · simp only [saveEditorList, List.get?_eq_getElem?]
    rw [List.getElem?_append_right (Nat.le_refl _)]
    simp
  · simp [spliceRemove]
    omega
  · intro j hj
    have hlt : j < (l.take i).length := by
      simp only [List.length_take]
      omega
    simp only [spliceRemove, List.get?_eq_getElem?]
    rw [List.getElem?_append_left hlt]
    exact List.getElem?_take_of_lt hj
  · intro j hj
    have hlen : (l.take i).length = i := by
      simp only [List.length_take]
      omega
    simp only [spliceRemove, List.get?_eq_getElem?]
    rw [List.getElem?_append_right (by omega : (l.take i).length ≤ j),
      List.getElem?_drop]
    congr 1
    omega

/-- C8: the open-file handler uses an explicit target's path when given,
capturing the active document's 1-based line and 0-based column only when
the target equals the active document's path; without a target it requires
an active document and uses its path, line and column, failing with the
`NoActiveEditor` message when there is none. -/
theorem openFileContext_spec :
    (∀ (u : String) (ed : ActiveEditor), ed.fsPath = u →
      openFileContext (some u) (some ed) =
        .ok { filePath := some u, line := some (ed.activeLine + 1),
              column := some ed.activeCharacter }) ∧
    (∀ (u : String) (ed : ActiveEditor), ed.fsPath ≠ u →
      openFileContext (some u) (some ed) =
        .ok { filePath := some u, line := some 1, column := some 0 }) ∧
    (∀ u : String, openFileContext (some u) none =
      .ok { filePath := some u, line := some 1, column := some 0 }) ∧
    (∀ ed : ActiveEditor, openFileContext none (some ed) =
      .ok { filePath := some ed.fsPath, line := some (ed.activeLine + 1),
            column := some ed.activeCharacter }) ∧
    openFileContext none none = .error noActiveEditorMsg := by
  refine ⟨?_, ?_, fun u => rfl, fun ed => rfl, rfl⟩
  · intro u ed h
    simp [openFileContext, h]
  · intro u ed h
    simp [openFileContext, h]

/-- C10: when the raw stored list is shorter than the rendered row's index
(for instance, it is empty while the rendered row is a synthesized entry),
a confirmed delete writes the store back unchanged in content — the splice
is out of range — while still reporting the editor as deleted, and both
the effective editor list and the rendered rows are unchanged on refresh. -/
theorem deleteEditor_out_of_range_frame (s : ConfigStore)
    (item : EditorTreeItem)
    (h : (rawEditors s).length ≤ item.index) :
    (deleteEditorConfirmed s item).store.editors = some (rawEditors s) ∧
    rawEditors (deleteEditorConfirmed s item).store = rawEditors s ∧
    getEditors (deleteEditorConfirmed s item).store = getEditors s ∧
    getChildrenEditors (deleteEditorConfirmed s item).store =
      getChildrenEditors s ∧
    (deleteEditorConfirmed s item).notification =
      "Editor deleted: " ++ item.editor.name := by
  have hsp : spliceRemove (rawEditors s) item.index = rawEditors s := by
    simp [spliceRemove, List.take_of_length_le h,
      List.drop_eq_nil_of_le (Nat.le_succ_of_le h)]
  have hge : getEditors (deleteEditorConfirmed s item).store = getEditors s := by
    rcases s with ⟨e, ip⟩
    rcases e with _ | l
    · rcases ip with _ | p <;>
        simp [getEditors, deleteEditorConfirmed, removeEditor, rawEditors,
          spliceRemove, getDefaultEditors]
    · simp only [deleteEditorConfirmed, removeEditor, rawEditors,
        Option.getD_some] at hsp ⊢
      simp [hsp]
  refine ⟨?_, ?_, hge, ?_, rfl⟩
  · show some (spliceRemove (rawEditors s) item.index) = some (rawEditors s)
    rw [hsp]
  · show (some (spliceRemove (rawEditors s) item.index)).getD [] = rawEditors s
    rw [Option.getD_some, hsp]
  · simp [getChildrenEditors, hge]

/-- Witness for C10 at the empty store: the rendered row is the synthesized
default entry, the confirmed delete leaves the effective list unchanged,
and the deletion is still reported. -/
theorem deleteEditor_out_of_range_frame_witness :
    (rawEditors ({} : ConfigStore)).length ≤ 0 ∧
    (getEditors (deleteEditorConfirmed ({} : ConfigStore)
        ⟨⟨"IntelliJ IDEA", .jetbrains, "", some "idea"⟩, 0⟩).store =
      getEditors ({} : ConfigStore)) ∧
    (deleteEditorConfirmed ({} : ConfigStore)
        ⟨⟨"IntelliJ IDEA", .jetbrains, "", some "idea"⟩, 0⟩).notification =
      "Editor deleted: " ++ "IntelliJ IDEA" :=
  ⟨by decide,
    (deleteEditor_out_of_range_frame ({} : ConfigStore)
      ⟨⟨"IntelliJ IDEA", .jetbrains, "", some "idea"⟩, 0⟩ (by decide)).2.2.1,
    (deleteEditor_out_of_range_frame ({} : ConfigStore)
      ⟨⟨"IntelliJ IDEA", .jetbrains, "", some "idea"⟩, 0⟩ (by decide)).2.2.2.2⟩

/-- Witness for C7 on a three-element list at index 1. -/
theorem saveRemove_list_spec_witness :
    1 < ([⟨"A", EditorType.jetbrains, "/a", none⟩,
          ⟨"B", EditorType.custom, "/b", some "b"⟩,
          ⟨"C", EditorType.jetbrains, "/c", none⟩] :
        List EditorConfig).length ∧
    (spliceRemove ([⟨"A", EditorType.jetbrains, "/a", none⟩,
          ⟨"B", EditorType.custom, "/b", some "b"⟩,
          ⟨"C", EditorType.jetbrains, "/c", none⟩] :
        List EditorConfig) 1).length =
      ([⟨"A", EditorType.jetbrains, "/a", none⟩,
          ⟨"B", EditorType.custom, "/b", some "b"⟩,
          ⟨"C", EditorType.jetbrains, "/c", none⟩] :
        List EditorConfig).length - 1 :=
  ⟨by decide,
    (saveRemove_list_spec
      ([⟨"A", EditorType.jetbrains, "/a", none⟩,
        ⟨"B", EditorType.custom, "/b", some "b"⟩,
        ⟨"C", EditorType.jetbrains, "/c", none⟩] : List EditorConfig)
      ⟨"D", EditorType.jetbrains, "/d", none⟩ 1 (by decide)).2.2.2.1⟩

/-- C9: the seeded registry resolves `jetbrains` to the JetBrains handler;
every type with no registered handler — exactly `custom` in the seeded
registry — fails with the `UnsupportedEditorType` message naming the type
and listing `jetbrains` as the supported types. -/
theorem getHandler_spec :
    getHandler initialHandlers .jetbrains = .ok .jetBrainsHandler ∧
    getHandler initialHandlers .custom =
      .error
        "Unsupported editor type: custom. Currently supported types: jetbrains" ∧
    (∀ t : EditorType, initialHandlers t = none ↔ t = .custom) ∧
    (∀ t : EditorType, initialHandlers t = none →
      getHandler initialHandlers t = .error (unsupportedTypeMsg t.str)) := by
  refine ⟨rfl, rfl, ?_, ?_⟩ <;> intro t <;> cases t <;>
    simp [initialHandlers, getHandler]

end Switch2IDEA
